import Mathlib

/-!
Verification of the Route53 zone-management core (route53.go) against its
natural-language specification.

The Go source is embedded shallowly:
  * pure string manipulation (strings.Trim, strings.HasSuffix, strings.TrimSuffix,
    strings.Contains) is modelled on lists of characters;
  * the AWS Route53 API is modelled as an oracle: each provider call's response
    is an explicit argument (Except for fallible calls), and the calls a
    function makes are returned as an explicit trace;
  * the two-timer polling loop of waitForChange is modelled as a function of
    the sequence of poll outcomes that occur before the deadline fires: when
    the list is exhausted, the deadline timer wins the select.
-/

namespace Ingress53

/-! ### SDK string constants (aws-sdk-go route53 package) -/

def ChangeActionUpsert : String := "UPSERT"

def ChangeActionDelete : String := "DELETE"

def ChangeStatusInsync : String := "INSYNC"

def ChangeStatusPending : String := "PENDING"

def RRTypeCname : String := "CNAME"

/-! ### Package-level constants and sentinel errors (route53.go lines 14-22) -/

def defaultRoute53RecordTTL : Int := 60

/-- The four kinds of error a caller can observe: the three sentinel errors of
route53.go plus a provider (transport/API) error carried verbatim. -/
inductive R53Error where
  | noHostedZoneFound
  | waitWatchTimedOut
  | recordNotInZone
  | provider (e : String)
deriving DecidableEq, Repr

/-! ### String helpers mirroring the Go strings package -/

/-- Go strings.Trim(s, ".") on a character list: removes all leading and all
trailing '.' characters. -/
def trimDotsL (l : List Char) : List Char :=
  (((l.dropWhile (· == '.')).reverse.dropWhile (· == '.'))).reverse

/-- Go strings.TrimSuffix: removes the suffix if present, otherwise returns
the list unchanged. -/
def trimSuffixL (l s : List Char) : List Char :=
  if s.isSuffixOf l then l.take (l.length - s.length) else l

/-! ### recordBelongsToZone (route53.go lines 148-162) -/

/-- The three checks of recordBelongsToZone after normalization: reject the
apex itself, reject names not ending in "." ++ zone, reject names whose
remaining part after stripping that suffix still contains a dot. -/
def belongsCore (record zone : List Char) : Bool :=
  if record = zone then false
  else if ('.' :: zone).isSuffixOf record then
    !((trimSuffixL record ('.' :: zone)).contains '.')
  else false

/-- recordBelongsToZone from route53.go on character lists: both arguments are
normalized with strings.Trim(-, ".") and then checked. -/
def recordBelongsToZoneL (record zone : List Char) : Bool :=
  belongsCore (trimDotsL record) (trimDotsL zone)

/-- recordBelongsToZone on strings, as in the Go source. -/
def recordBelongsToZone (record zone : String) : Bool :=
  recordBelongsToZoneL record.toList zone.toList

/-- Normalization as the spec sentence describes it: strip a single trailing
dot if present, make no other change. Used to compare the spec's wording with
the source's strings.Trim. -/
def stripOneTrailingDot (l : List Char) : List Char :=
  if l.getLast? = some '.' then l.dropLast else l

/-- Variant of recordBelongsToZone that normalizes as the spec sentence says
(one trailing dot only) instead of as the source does (strings.Trim). -/
def recordBelongsToZoneSpecNorm (record zone : String) : Bool :=
  belongsCore (stripOneTrailingDot record.toList) (stripOneTrailingDot zone.toList)

/-! ### Basic lemmas about trimDotsL -/

theorem dropWhile_head_not_dot (l : List Char) (a : Char) (as : List Char)
    (h : l.dropWhile (· == '.') = a :: as) : a ≠ '.' := by
  have := List.head?_dropWhile_not (· == '.') l
  rw [h] at this
  simp at this
  exact this

theorem trimDotsL_decomp (l : List Char) :
    ∃ t : List Char, l.dropWhile (· == '.') = trimDotsL l ++ t ∧ ∀ c ∈ t, c = '.' := by
  refine ⟨((l.dropWhile (· == '.')).reverse.takeWhile (· == '.')).reverse, ?_, ?_⟩
  · unfold trimDotsL
    have h := List.takeWhile_append_dropWhile (· == '.') (l.dropWhile (· == '.')).reverse
    conv_lhs => rw [← List.reverse_reverse (l.dropWhile (· == '.')), ← h]
    rw [List.reverse_append]
  · intro c hc
    rw [List.mem_reverse] at hc
    have := List.mem_takeWhile_imp hc
    simpa using this

theorem trimDotsL_no_leading_dot (l : List Char) (xs : List Char) :
    trimDotsL l ≠ '.' :: xs := by
  intro h
  obtain ⟨t, ht, -⟩ := trimDotsL_decomp l
  rw [h] at ht
  exact dropWhile_head_not_dot l '.' (xs ++ t) (by simpa using ht) rfl

theorem trimDotsL_no_trailing_dot (l : List Char) (xs : List Char) :
    trimDotsL l ≠ xs ++ ['.'] := by
  intro h
  unfold trimDotsL at h
  have h2 : (l.dropWhile (· == '.')).reverse.dropWhile (· == '.') =
      '.' :: xs.reverse := by
    have := congrArg List.reverse h
    simpa using this
  have := List.head?_dropWhile_not (· == '.') (l.dropWhile (· == '.')).reverse
  rw [h2] at this
  simp at this

/-! ### The existential characterization used for claim C1 -/

theorem trimSuffixL_append (t s : List Char) : trimSuffixL (t ++ s) s = t := by
  unfold trimSuffixL
  rw [if_pos]
  · rw [List.length_append]
    simp [List.take_left']
  · rw [List.isSuffixOf_iff_suffix]
    exact ⟨t, rfl⟩

theorem belongsCore_iff (r z : List Char) (hr : ∀ xs, r ≠ '.' :: xs) :
    belongsCore r z = true ↔
      ∃ l : List Char, l ≠ [] ∧ '.' ∉ l ∧ r = l ++ '.' :: z := by
  constructor
  · intro h
    unfold belongsCore at h
    by_cases he : r = z
    · simp [he] at h
    · rw [if_neg he] at h
      by_cases hs : ('.' :: z).isSuffixOf r
      · rw [if_pos hs] at h
        rw [List.isSuffixOf_iff_suffix] at hs
        obtain ⟨t, ht⟩ := hs
        refine ⟨t, ?_, ?_, ht.symm⟩
        · intro hnil
          subst hnil
          exact hr z ht.symm
        · intro hmem
          rw [← ht] at h
          rw [trimSuffixL_append] at h
          simp at h
          exact h hmem
      · simp [hs] at h
  · rintro ⟨l, hne, hdot, hl⟩
    unfold belongsCore
    have hsuf : ('.' :: z).isSuffixOf r = true := by
      rw [List.isSuffixOf_iff_suffix]
      exact ⟨l, hl.symm⟩
    have hneq : r ≠ z := by
      intro he
      have := congrArg List.length hl
      rw [he] at this
      simp at this
      omega
    rw [if_neg hneq, if_pos hsuf, hl, trimSuffixL_append]
    simp
    intro hmem
    exact hdot hmem

/-! ### Provider API data (aws-sdk-go route53 types, pointers become Option) -/

/-- A hosted-zone summary as returned by ListHostedZonesByName. -/
structure HostedZone where
  Name : String
  Id : String
deriving DecidableEq, Repr

/-- Output of ListHostedZonesByName. -/
structure ListHostedZonesByNameOutput where
  HostedZones : List HostedZone
deriving DecidableEq, Repr

/-- The parts of a GetHostedZone response read by setZone: zone.HostedZone.Id
and zone.DelegationSet.NameServers. -/
structure GetHostedZoneOutput where
  Id : String
  NameServers : List String
deriving DecidableEq, Repr

/-- A resource record set; Type_ stands for the Go field Type, which is a
reserved word in Lean. -/
structure ResourceRecordSet where
  Name : Option String := none
  TTL : Option Int := none
  Type_ : Option String := none
  ResourceRecords : Option (List String) := none
deriving DecidableEq, Repr

/-- A single change of a change batch. -/
structure Change where
  Action : Option String
  RecordSet : ResourceRecordSet
deriving DecidableEq, Repr

/-- The change batch of a ChangeResourceRecordSets request. -/
structure ChangeBatch where
  Changes : List Change
  Comment : Option String
deriving DecidableEq, Repr

/-- Input of ChangeResourceRecordSets. -/
structure ChangeResourceRecordSetsInput where
  Batch : ChangeBatch
  HostedZoneId : Option String
deriving DecidableEq, Repr

/-- One provider API call, as recorded in a call trace. -/
inductive APICall where
  | listHostedZonesByName (dnsName : String) (maxItems : String)
  | getHostedZone (id : String)
  | changeResourceRecordSets (input : ChangeResourceRecordSetsInput)
  | getChange (id : String)
deriving DecidableEq, Repr

/-! ### The zone handle (route53Zone, route53.go lines 24-29) -/

/-- The route53Zone handle; the api field of the Go struct is replaced by
passing provider responses explicitly. -/
structure route53Zone where
  Name : String
  ID : String
  Nameservers : List String
deriving DecidableEq, Repr

/-- The zero value of route53Zone, as allocated by newRoute53Zone before
setZone runs. -/
def emptyZone : route53Zone :=
  { Name := "", ID := "", Nameservers := [] }

/-! ### waitForChange (route53.go lines 86-114) -/

/-- Result of the waitForChange loop: nil, the sentinel timeout error, or a
provider error returned verbatim. -/
inductive WaitResult where
  | ok
  | timedOut
  | provErr (e : String)
deriving DecidableEq, Repr

/-- The two timer resources of waitForChange and whether each has been
stopped. -/
structure TimerState where
  timeoutStopped : Bool
  tickStopped : Bool
deriving DecidableEq, Repr

/-- The select loop of waitForChange. The input list holds the outcome of
each GetChange poll that the ticker delivers before the deadline timer fires;
an exhausted list means the deadline fires next, which is the timeout branch
of the select. Returns the loop result together with the GetChange calls
made. -/
def waitPoll (changeId : String) : List (Except String String) → WaitResult × List APICall
  | [] => (.timedOut, [])
  | p :: rest =>
    match p with
    | .error e => (.provErr e, [APICall.getChange changeId])
    | .ok status =>
      if status = ChangeStatusInsync then (.ok, [APICall.getChange changeId])
      else
        let w := waitPoll changeId rest
        (w.1, APICall.getChange changeId :: w.2)

/-- waitForChange: runs the select loop, then the deferred function stops the
deadline timer and the interval ticker on whichever exit path was taken. -/
def waitForChange (changeId : String) (polls : List (Except String String)) :
    WaitResult × List APICall × TimerState :=
  let w := waitPoll changeId polls
  (w.1, w.2, { timeoutStopped := true, tickStopped := true })

/-! ### changeCname, UpsertCname, DeleteCname (route53.go lines 43-84) -/

/-- The Go error value returned by waitForChange, as seen by changeCname. -/
def waitResultToExcept : WaitResult → Except R53Error Unit
  | .ok => .ok ()
  | .timedOut => .error R53Error.waitWatchTimedOut
  | .provErr e => .error (R53Error.provider e)

/-- changeCname: validates ownership, builds the mutation payload, submits it
and waits for the change. submitResp is the provider's answer to
ChangeResourceRecordSets (the change id on success); polls feeds the watcher.
Returns the Go function's error result together with the full trace of
provider calls made. -/
def changeCname (z : route53Zone) (action recordName value : String)
    (submitResp : Except String String) (polls : List (Except String String)) :
    Except R53Error Unit × List APICall :=
  if recordBelongsToZone recordName z.Name = false then
    (.error R53Error.recordNotInZone, [])
  else
    let rr : ResourceRecordSet :=
      if action = ChangeActionDelete then
        { Name := some recordName }
      else
        { Name := some recordName, TTL := some defaultRoute53RecordTTL,
          Type_ := some RRTypeCname, ResourceRecords := some [value] }
    let input : ChangeResourceRecordSetsInput :=
      { Batch := { Changes := [{ Action := some action, RecordSet := rr }],
                   Comment := some "Managed by ingress-route53-registrator" },
        HostedZoneId := some z.ID }
    match submitResp with
    | .error e => (.error (R53Error.provider e), [APICall.changeResourceRecordSets input])
    | .ok changeId =>
      let w := waitForChange changeId polls
      (waitResultToExcept w.1, APICall.changeResourceRecordSets input :: w.2.1)

/-- UpsertCname delegates to changeCname with the UPSERT action. -/
def UpsertCname (z : route53Zone) (recordName value : String)
    (submitResp : Except String String) (polls : List (Except String String)) :
    Except R53Error Unit × List APICall :=
  changeCname z ChangeActionUpsert recordName value submitResp polls

/-- DeleteCname delegates to changeCname with the DELETE action and an empty
value. -/
def DeleteCname (z : route53Zone) (recordName : String)
    (submitResp : Except String String) (polls : List (Except String String)) :
    Except R53Error Unit × List APICall :=
  changeCname z ChangeActionDelete recordName "" submitResp polls

/-! ### setZone and newRoute53Zone (route53.go lines 31-41 and 116-146) -/

/-- setZone: resolves the hosted zone for a name. listResp is the provider's
answer to ListHostedZonesByName, getResp its answer to GetHostedZone. Returns
the Go error result together with the receiver's state after the call (the Go
method mutates the receiver through a pointer only on the success path). -/
def setZone (z : route53Zone) (name : String)
    (listResp : Except String ListHostedZonesByNameOutput)
    (getResp : Except String GetHostedZoneOutput) :
    Except R53Error Unit × route53Zone :=
  match listResp with
  | .error e => (.error (R53Error.provider e), z)
  | .ok zones =>
    match zones.HostedZones with
    | [] => (.error R53Error.noHostedZoneFound, z)
    | hz :: _ =>
      if hz.Name ≠ name then (.error R53Error.noHostedZoneFound, z)
      else
        match getResp with
        | .error e => (.error (R53Error.provider e), z)
        | .ok out =>
          (.ok (), { Name := name, ID := out.Id, Nameservers := out.NameServers })

/-- newRoute53Zone: allocates a zero-valued handle, runs setZone, and returns
either the populated handle or (nil, err). -/
def newRoute53Zone (zoneName : String)
    (listResp : Except String ListHostedZonesByNameOutput)
    (getResp : Except String GetHostedZoneOutput) :
    Except R53Error route53Zone :=
  match setZone emptyZone zoneName listResp getResp with
  | (.error e, _) => .error e
  | (.ok _, z) => .ok z

/-- Normalization of a zone name as the spec describes it for claim C4: a
name with its single trailing dot stripped. -/
def stripOneTrailingDotS (s : String) : String :=
  (stripOneTrailingDot s.toList).asString

/-! ### Claim C1 -/

/-- Claim C1: recordBelongsToZone returns true iff, after normalization, the
record is exactly one label deeper than the zone with matching suffix — that
is, the normalized record is a nonempty dot-free label, a dot, and the
normalized zone; in particular the apex, deeper descendants and names of
other zones are rejected, as the four concrete examples of the claim show. -/
theorem recordBelongsToZone_one_label_deeper :
    (∀ record zone : String,
      recordBelongsToZone record zone = true ↔
        ∃ l : List Char, l ≠ [] ∧ '.' ∉ l ∧
          trimDotsL record.toList = l ++ '.' :: trimDotsL zone.toList) ∧
    recordBelongsToZone "foo.example.com." "example.com" = true ∧
    recordBelongsToZone "example.com" "example.com" = false ∧
    recordBelongsToZone "a.b.example.com" "example.com" = false ∧
    recordBelongsToZone "foo.other.com" "example.com" = false := by
  refine ⟨fun record zone => ?_, by decide, by decide, by decide, by decide⟩
  exact belongsCore_iff _ _ (fun xs => trimDotsL_no_leading_dot record.toList xs)

/-- Witness for C1: the characterization applied at the concrete input
"foo.example.com." / "example.com". -/
theorem recordBelongsToZone_one_label_deeper_witness :
    ∃ l : List Char, l ≠ [] ∧ '.' ∉ l ∧
      trimDotsL "foo.example.com.".toList = l ++ '.' :: trimDotsL "example.com".toList :=
  (recordBelongsToZone_one_label_deeper.1 "foo.example.com." "example.com").mp (by decide)

/-! ### Claim C2 -/

/-- Claim C2: when the ownership validator rejects the record name for the
zone's name, UpsertCname and DeleteCname both return the RecordNotInZone
sentinel error and the provider-call trace is empty — in particular neither
ChangeResourceRecordSets nor GetChange is invoked. -/
theorem changeCname_rejects_without_api_call :
    ∀ z recordName value submitResp polls,
      recordBelongsToZone recordName z.Name = false →
      UpsertCname z recordName value submitResp polls =
        (Except.error R53Error.recordNotInZone, []) ∧
      DeleteCname z recordName submitResp polls =
        (Except.error R53Error.recordNotInZone, []) := by
  intro z recordName value submitResp polls h
  constructor <;> simp [UpsertCname, DeleteCname, changeCname, h]

/-- Witness for C2 at a concrete rejected record. -/
theorem changeCname_rejects_without_api_call_witness :
    UpsertCname emptyZone "foo" "bar" (Except.ok "C1") [] =
      (Except.error R53Error.recordNotInZone, []) ∧
    DeleteCname emptyZone "foo" (Except.ok "C1") [] =
      (Except.error R53Error.recordNotInZone, []) :=
  changeCname_rejects_without_api_call emptyZone "foo" "bar" (Except.ok "C1") []
    (by decide)

/-! ### Claims C3 and C5: the polling loop -/

theorem waitPoll_pending_append (changeId : String)
    (pre rest : List (Except String String))
    (hpre : ∀ p ∈ pre, p = Except.ok ChangeStatusPending) :
    waitPoll changeId (pre ++ rest) =
      ((waitPoll changeId rest).1,
        pre.map (fun _ => APICall.getChange changeId) ++ (waitPoll changeId rest).2) := by
  induction pre with
  | nil => simp
  | cons p ps ih =>
    have hp : p = Except.ok ChangeStatusPending := hpre p (by simp)
    subst hp
    have hih := ih (fun q hq => hpre q (by simp [hq]))
    simp [waitPoll, ChangeStatusPending, ChangeStatusInsync, hih]

/-- Claim C3: if some poll returns INSYNC before the deadline fires, the
watcher returns success at that poll no matter how many earlier polls
returned PENDING; if every poll before the deadline returns PENDING and the
deadline fires (the poll list is exhausted), it returns the timeout error. -/
theorem waitForChange_insync_or_timeout :
    (∀ changeId pre rest, (∀ p ∈ pre, p = Except.ok ChangeStatusPending) →
      (waitForChange changeId (pre ++ Except.ok ChangeStatusInsync :: rest)).1 =
        WaitResult.ok) ∧
    (∀ changeId polls, (∀ p ∈ polls, p = Except.ok ChangeStatusPending) →
      (waitForChange changeId polls).1 = WaitResult.timedOut) := by
  constructor
  · intro changeId pre rest hpre
    show (waitPoll changeId (pre ++ Except.ok ChangeStatusInsync :: rest)).1 = WaitResult.ok
    rw [waitPoll_pending_append changeId pre _ hpre]
    simp [waitPoll, ChangeStatusInsync]
  · intro changeId polls hp
    show (waitPoll changeId polls).1 = WaitResult.timedOut
    have h := waitPoll_pending_append changeId polls [] hp
    rw [List.append_nil] at h
    rw [h]
    simp [waitPoll]

/-- Witness for C3: one PENDING poll followed by INSYNC succeeds; a single
PENDING poll followed by the deadline times out. -/
theorem waitForChange_insync_or_timeout_witness :
    (waitForChange "C1"
        ([Except.ok ChangeStatusPending] ++ Except.ok ChangeStatusInsync :: [])).1 =
      WaitResult.ok ∧
    (waitForChange "C1" [Except.ok ChangeStatusPending]).1 = WaitResult.timedOut :=
  ⟨waitForChange_insync_or_timeout.1 "C1" [Except.ok ChangeStatusPending] []
      (by intro p hp; simpa using hp),
   waitForChange_insync_or_timeout.2 "C1" [Except.ok ChangeStatusPending]
      (by intro p hp; simpa using hp)⟩

/-- Claim C5: a provider error on a poll makes the watcher return that error
verbatim at that poll: the trace shows exactly the polls up to and including
the failing one, so no further poll and no retry happens. -/
theorem waitForChange_provider_error_fatal :
    ∀ changeId pre e rest, (∀ p ∈ pre, p = Except.ok ChangeStatusPending) →
      (waitForChange changeId (pre ++ Except.error e :: rest)).1 =
        WaitResult.provErr e ∧
      (waitForChange changeId (pre ++ Except.error e :: rest)).2.1 =
        pre.map (fun _ => APICall.getChange changeId) ++ [APICall.getChange changeId] := by
  intro changeId pre e rest hpre
  constructor
  · show (waitPoll changeId (pre ++ Except.error e :: rest)).1 = WaitResult.provErr e
    rw [waitPoll_pending_append changeId pre _ hpre]
    simp [waitPoll]
  · show (waitPoll changeId (pre ++ Except.error e :: rest)).2 =
      pre.map (fun _ => APICall.getChange changeId) ++ [APICall.getChange changeId]
    rw [waitPoll_pending_append changeId pre _ hpre]
    simp [waitPoll]

/-- Witness for C5: an immediate provider error wins even though an INSYNC
poll would have followed. -/
theorem waitForChange_provider_error_fatal_witness :
    (waitForChange "C1" ([] ++ Except.error "boom" :: [Except.ok ChangeStatusInsync])).1 =
      WaitResult.provErr "boom" ∧
    (waitForChange "C1" ([] ++ Except.error "boom" :: [Except.ok ChangeStatusInsync])).2.1 =
      ([] : List (Except String String)).map (fun _ => APICall.getChange "C1") ++
        [APICall.getChange "C1"] :=
  waitForChange_provider_error_fatal "C1" [] "boom" [Except.ok ChangeStatusInsync]
    (by intro p hp; simp at hp)

/-! ### Claim C9 -/

/-- Claim C9: on every exit path of the watcher — success, deadline timeout,
or provider error — both the deadline timer and the interval ticker end up
stopped, since the deferred stop runs on whichever path returns. -/
theorem waitForChange_stops_timers :
    ∀ changeId polls,
      (waitForChange changeId polls).2.2 =
        { timeoutStopped := true, tickStopped := true } := by
  intro changeId polls
  rfl

/-! ### Claim C6 -/

/-- The record set the claim expects for an Upsert: name, the fixed TTL
constant, record type CNAME and exactly one value. -/
def expectedUpsertRecordSet (recordName value : String) : ResourceRecordSet :=
  { Name := some recordName
    TTL := some defaultRoute53RecordTTL
    Type_ := some RRTypeCname
    ResourceRecords := some [value] }

/-- The record set the claim expects for a Delete: only the record name, no
TTL, no type, no values. -/
def expectedDeleteRecordSet (recordName : String) : ResourceRecordSet :=
  { Name := some recordName
    TTL := none
    Type_ := none
    ResourceRecords := none }

/-- The mutation input the claim expects: a single change with the given
action and record set, the fixed managing-system comment, scoped to the
zone's identifier. -/
def expectedMutation (action : String) (rr : ResourceRecordSet)
    (zoneId : String) : ChangeResourceRecordSetsInput :=
  { Batch :=
      { Changes := [{ Action := some action, RecordSet := rr }]
        Comment := some "Managed by ingress-route53-registrator" }
    HostedZoneId := some zoneId }

/-- Claim C6: once ownership validation passes, the first provider call is
the mutation, and its payload has exactly the shape of the source: a Delete
record set carries only the record name; an Upsert record set carries the
name, the fixed 60-second TTL, the CNAME type and the single value; both are
wrapped in a one-change batch with the fixed managing-system comment, scoped
to the resolved zone's identifier. -/
theorem changeCname_payload_shape :
    ∀ z recordName value submitResp polls,
      recordBelongsToZone recordName z.Name = true →
      (UpsertCname z recordName value submitResp polls).2.head? =
        some (APICall.changeResourceRecordSets
          (expectedMutation ChangeActionUpsert
            (expectedUpsertRecordSet recordName value) z.ID)) ∧
      (DeleteCname z recordName submitResp polls).2.head? =
        some (APICall.changeResourceRecordSets
          (expectedMutation ChangeActionDelete
            (expectedDeleteRecordSet recordName) z.ID)) := by
  intro z recordName value submitResp polls h
  constructor <;> cases submitResp <;>
    simp [UpsertCname, DeleteCname, changeCname, h, expectedMutation,
      expectedUpsertRecordSet, expectedDeleteRecordSet,
      ChangeActionUpsert, ChangeActionDelete]

/-- Witness for C6 at a concrete accepted record. -/
theorem changeCname_payload_shape_witness :
    (UpsertCname { Name := "example.com", ID := "Z1", Nameservers := [] }
        "foo.example.com" "target.example.org" (Except.ok "C1") []).2.head? =
      some (APICall.changeResourceRecordSets
        (expectedMutation ChangeActionUpsert
          (expectedUpsertRecordSet "foo.example.com" "target.example.org") "Z1")) ∧
    (DeleteCname { Name := "example.com", ID := "Z1", Nameservers := [] }
        "foo.example.com" (Except.ok "C1") []).2.head? =
      some (APICall.changeResourceRecordSets
        (expectedMutation ChangeActionDelete
          (expectedDeleteRecordSet "foo.example.com") "Z1")) :=
  changeCname_payload_shape { Name := "example.com", ID := "Z1", Nameservers := [] }
    "foo.example.com" "target.example.org" (Except.ok "C1") [] (by decide)

/-! ### Claim C4 -/

/-- Counterexample for C4: the provider returns the single candidate
"example.com." for the request "example.com"; the two names are equal after
the spec's trailing-dot normalization and the candidate list is nonempty, yet
setZone still fails with NoHostedZoneFound, because the source compares the
names without any normalization. -/
theorem setZone_normalized_match_counterexample :
    newRoute53Zone "example.com"
        (Except.ok { HostedZones := [{ Name := "example.com.", Id := "Z1" }] })
        (Except.ok { Id := "Z1", NameServers := ["ns1.example.org"] }) =
      Except.error R53Error.noHostedZoneFound ∧
    stripOneTrailingDotS "example.com." = stripOneTrailingDotS "example.com" ∧
    ([{ Name := "example.com.", Id := "Z1" }] : List HostedZone) ≠ [] := by
  refine ⟨rfl, by decide, by simp⟩

/-- Amended claim C4: zone resolution fails with NoHostedZoneFound exactly
when the provider returns zero zones, or when the single candidate's name is
not literally (byte-for-byte, with no normalization) equal to the requested
name; any literal mismatch, including a dangling trailing dot, is rejected. -/
theorem setZone_noHostedZoneFound_iff :
    ∀ z name hzs getResp,
      (setZone z name (Except.ok { HostedZones := hzs }) getResp).1 =
          Except.error R53Error.noHostedZoneFound ↔
        (hzs = [] ∨ ∃ hz t, hzs = hz :: t ∧ hz.Name ≠ name) := by
  intro z name hzs getResp
  cases hzs with
  | nil => simp [setZone]
  | cons hz t =>
    by_cases hn : hz.Name = name
    · cases getResp with
      | error e => simp [setZone, hn]
      | ok out => simp [setZone, hn]
    · simp [setZone, hn]

/-- Witness for the amended C4: an empty candidate list yields
NoHostedZoneFound. -/
theorem setZone_noHostedZoneFound_iff_witness :
    (setZone emptyZone "example.com" (Except.ok { HostedZones := [] })
        (Except.ok { Id := "Z1", NameServers := [] })).1 =
      Except.error R53Error.noHostedZoneFound :=
  (setZone_noHostedZoneFound_iff emptyZone "example.com" []
    (Except.ok { Id := "Z1", NameServers := [] })).mpr (Or.inl rfl)

/-! ### Claim C8 -/

/-- Counterexample for C8: resolution succeeds although the handle's ID and
Nameservers are empty, because setZone copies the provider's GetHostedZone
response without checking it for emptiness. -/
theorem newRoute53Zone_empty_fields_counterexample :
    newRoute53Zone "example.com"
        (Except.ok { HostedZones := [{ Name := "example.com", Id := "Z1" }] })
        (Except.ok { Id := "", NameServers := [] }) =
      Except.ok { Name := "example.com", ID := "", Nameservers := [] } := by
  rfl

/-- Amended claim C8: on failed resolution no handle is produced at all, and
on success the handle's ID and Nameservers are exactly the id and nameserver
list of the provider's GetHostedZone response (hence non-empty precisely when
the provider returned non-empty values), and its Name is the requested
name. -/
theorem newRoute53Zone_fields_from_provider :
    ∀ zoneName listResp out z,
      newRoute53Zone zoneName listResp (Except.ok out) = Except.ok z →
      z.Name = zoneName ∧ z.ID = out.Id ∧ z.Nameservers = out.NameServers := by
  intro zoneName listResp out z h
  cases listResp with
  | error e => simp [newRoute53Zone, setZone] at h
  | ok zones =>
    obtain ⟨hzs⟩ := zones
    cases hzs with
    | nil => simp [newRoute53Zone, setZone] at h
    | cons hz t =>
      by_cases hn : hz.Name = zoneName
      · simp [newRoute53Zone, setZone, hn] at h
        subst h
        exact ⟨rfl, rfl, rfl⟩
      · simp [newRoute53Zone, setZone, hn] at h

/-- Witness for the amended C8 at a concrete successful resolution. -/
theorem newRoute53Zone_fields_from_provider_witness :
    ({ Name := "example.com", ID := "Z1", Nameservers := ["ns1.example.org"] }
        : route53Zone).Name = "example.com" ∧
    ({ Name := "example.com", ID := "Z1", Nameservers := ["ns1.example.org"] }
        : route53Zone).ID =
      ({ Id := "Z1", NameServers := ["ns1.example.org"] } : GetHostedZoneOutput).Id ∧
    ({ Name := "example.com", ID := "Z1", Nameservers := ["ns1.example.org"] }
        : route53Zone).Nameservers =
      ({ Id := "Z1", NameServers := ["ns1.example.org"] } : GetHostedZoneOutput).NameServers :=
  newRoute53Zone_fields_from_provider "example.com"
    (Except.ok { HostedZones := [{ Name := "example.com", Id := "Z1" }] })
    { Id := "Z1", NameServers := ["ns1.example.org"] }
    { Name := "example.com", ID := "Z1", Nameservers := ["ns1.example.org"] }
    rfl

/-! ### Claim C10 -/

/-- Claim C10: zone resolution is atomic — on every failing path of setZone
(provider error from ListHostedZonesByName, zero or non-matching candidate,
or provider error from GetHostedZone), the receiver's fields are unchanged,
and newRoute53Zone surfaces the same error with no zone handle. -/
theorem setZone_atomic_on_failure :
    (∀ z name listResp getResp e,
      (setZone z name listResp getResp).1 = Except.error e →
      (setZone z name listResp getResp).2 = z) ∧
    (∀ name listResp getResp e,
      (setZone emptyZone name listResp getResp).1 = Except.error e →
      newRoute53Zone name listResp getResp = Except.error e) := by
  constructor
  · intro z name listResp getResp e h
    cases listResp with
    | error e2 => rfl
    | ok zones =>
      obtain ⟨hzs⟩ := zones
      cases hzs with
      | nil => rfl
      | cons hz t =>
        by_cases hn : hz.Name = name
        · cases getResp with
          | error e2 => simp [setZone, hn]
          | ok out => simp [setZone, hn] at h
        · simp [setZone, hn]
  · intro name listResp getResp e h
    unfold newRoute53Zone
    cases hsz : setZone emptyZone name listResp getResp with
    | mk r z2 =>
      cases r with
      | error e2 =>
        rw [hsz] at h
        simp at h
        subst h
        rfl
      | ok u =>
        rw [hsz] at h
        simp at h

/-- Witness for C10: a provider error during listing leaves the handle's
fields untouched and newRoute53Zone returns the same error. -/
theorem setZone_atomic_on_failure_witness :
    (setZone emptyZone "example.com" (Except.error "boom")
        (Except.ok { Id := "Z1", NameServers := [] })).2 = emptyZone ∧
    newRoute53Zone "example.com" (Except.error "boom")
        (Except.ok { Id := "Z1", NameServers := [] }) =
      Except.error (R53Error.provider "boom") :=
  ⟨setZone_atomic_on_failure.1 emptyZone "example.com" (Except.error "boom")
      (Except.ok { Id := "Z1", NameServers := [] }) (R53Error.provider "boom") rfl,
   setZone_atomic_on_failure.2 "example.com" (Except.error "boom")
      (Except.ok { Id := "Z1", NameServers := [] }) (R53Error.provider "boom") rfl⟩

/-! ### Claim C7 -/

/-- Counterexample for C7: on the input record "foo.example.com" and zone
"example.com.." the source function (which normalizes with strings.Trim,
removing every leading and trailing dot) answers true, while the variant that
strips only a single trailing dot — the claim's description of the
normalization — answers false. -/
theorem recordBelongsToZone_trim_counterexample :
    recordBelongsToZone "foo.example.com" "example.com.." = true ∧
    recordBelongsToZoneSpecNorm "foo.example.com" "example.com.." = false :=
  ⟨by decide, by decide⟩

/-- Amended claim C7: recordBelongsToZone normalizes each of its two
arguments by stripping all leading and all trailing dots (Go strings.Trim
with cutset ".") and making no other change — the normalized form is an
infix of the input whose removed margins consist only of dots and which
itself neither starts nor ends with a dot — before applying the apex, suffix
and depth checks. -/
theorem recordBelongsToZone_trims_all_dots :
    (∀ record zone : String,
      recordBelongsToZone record zone =
        belongsCore (trimDotsL record.toList) (trimDotsL zone.toList)) ∧
    (∀ l : List Char, ∃ a b : List Char,
      l = a ++ trimDotsL l ++ b ∧ (∀ c ∈ a, c = '.') ∧ (∀ c ∈ b, c = '.') ∧
      (∀ xs, trimDotsL l ≠ '.' :: xs) ∧ (∀ xs, trimDotsL l ≠ xs ++ ['.'])) := by
  constructor
  · intro record zone
    rfl
  · intro l
    obtain ⟨t, ht, htdots⟩ := trimDotsL_decomp l
    refine ⟨l.takeWhile (· == '.'), t, ?_, ?_, htdots,
      trimDotsL_no_leading_dot l, trimDotsL_no_trailing_dot l⟩
    · conv_lhs => rw [← List.takeWhile_append_dropWhile (· == '.') l]
      rw [ht, ← List.append_assoc]
    · intro c hc
      simpa using List.mem_takeWhile_imp hc

/-- Witness for the amended C7: the identity between the source function and
its normalize-then-check form at a concrete input. -/
theorem recordBelongsToZone_trims_all_dots_witness :
    recordBelongsToZone ".foo.example.com." "example.com" =
      belongsCore (trimDotsL ".foo.example.com.".toList)
        (trimDotsL "example.com".toList) :=
  recordBelongsToZone_trims_all_dots.1 ".foo.example.com." "example.com"

end Ingress53
